import Mathlib

/-!
Verification of the JSON-RPC proxy core (`client.rs`): protocol envelope
types, the interception-aware `send` dispatch (single and batch), and the
`AuthSource` credential resolver.

Modelling conventions:
* JSON values are modelled by the inductive `Json` (numbers as `Int`; the
  claims under study never involve non-integral numbers).
* Fallible Rust code returns `Except`; `serde` decoding is modelled field
  by field after the hand-written visitor and the derived implementations.
* The concurrent batch path is modelled by passing the channel arrival
  order explicitly: `arrival` is the list of index-tagged requests in the
  order the concurrent interception invocations complete, which is some
  permutation of `reqs.enum`.  The `try_join!` of the two batch operations
  is determinised left-first (the claims proved never depend on which of
  two simultaneous errors wins).
* Upstream HTTP is an oracle function; transport, credential and decode
  failures are the oracle's `.error` outcomes.
-/

/-- JSON value, mirroring `serde_json::Value` (numbers restricted to `Int`). -/
inductive Json where
  | null
  | bool (b : Bool)
  | num (n : Int)
  | str (s : String)
  | arr (elems : List Json)
  | obj (fields : List (String × Json))

mutual

def Json.decEq : (a b : Json) → Decidable (a = b)
  | .null, .null => isTrue rfl
  | .null, .bool _ => isFalse (fun h => Json.noConfusion h)
  | .null, .num _ => isFalse (fun h => Json.noConfusion h)
  | .null, .str _ => isFalse (fun h => Json.noConfusion h)
  | .null, .arr _ => isFalse (fun h => Json.noConfusion h)
  | .null, .obj _ => isFalse (fun h => Json.noConfusion h)
  | .bool _, .null => isFalse (fun h => Json.noConfusion h)
  | .bool a, .bool b =>
    if h : a = b then isTrue (by rw [h]) else isFalse (fun c => h (Json.bool.inj c))
  | .bool _, .num _ => isFalse (fun h => Json.noConfusion h)
  | .bool _, .str _ => isFalse (fun h => Json.noConfusion h)
  | .bool _, .arr _ => isFalse (fun h => Json.noConfusion h)
  | .bool _, .obj _ => isFalse (fun h => Json.noConfusion h)
  | .num _, .null => isFalse (fun h => Json.noConfusion h)
  | .num _, .bool _ => isFalse (fun h => Json.noConfusion h)
  | .num a, .num b =>
    if h : a = b then isTrue (by rw [h]) else isFalse (fun c => h (Json.num.inj c))
  | .num _, .str _ => isFalse (fun h => Json.noConfusion h)
  | .num _, .arr _ => isFalse (fun h => Json.noConfusion h)
  | .num _, .obj _ => isFalse (fun h => Json.noConfusion h)
  | .str _, .null => isFalse (fun h => Json.noConfusion h)
  | .str _, .bool _ => isFalse (fun h => Json.noConfusion h)
  | .str _, .num _ => isFalse (fun h => Json.noConfusion h)
  | .str a, .str b =>
    if h : a = b then isTrue (by rw [h]) else isFalse (fun c => h (Json.str.inj c))
  | .str _, .arr _ => isFalse (fun h => Json.noConfusion h)
  | .str _, .obj _ => isFalse (fun h => Json.noConfusion h)
  | .arr _, .null => isFalse (fun h => Json.noConfusion h)
  | .arr _, .bool _ => isFalse (fun h => Json.noConfusion h)
  | .arr _, .num _ => isFalse (fun h => Json.noConfusion h)
  | .arr _, .str _ => isFalse (fun h => Json.noConfusion h)
  | .arr a, .arr b =>
    match Json.decEqList a b with
    | isTrue h => isTrue (by rw [h])
    | isFalse h => isFalse (fun c => h (Json.arr.inj c))
  | .arr _, .obj _ => isFalse (fun h => Json.noConfusion h)
  | .obj _, .null => isFalse (fun h => Json.noConfusion h)
  | .obj _, .bool _ => isFalse (fun h => Json.noConfusion h)
  | .obj _, .num _ => isFalse (fun h => Json.noConfusion h)
  | .obj _, .str _ => isFalse (fun h => Json.noConfusion h)
  | .obj _, .arr _ => isFalse (fun h => Json.noConfusion h)
  | .obj a, .obj b =>
    match Json.decEqFields a b with
    | isTrue h => isTrue (by rw [h])
    | isFalse h => isFalse (fun c => h (Json.obj.inj c))

def Json.decEqList : (a b : List Json) → Decidable (a = b)
  | [], [] => isTrue rfl
  | [], _ :: _ => isFalse (fun h => List.noConfusion h)
  | _ :: _, [] => isFalse (fun h => List.noConfusion h)
  | x :: xs, y :: ys =>
    match Json.decEq x y, Json.decEqList xs ys with
    | isTrue h1, isTrue h2 => isTrue (by rw [h1, h2])
    | isFalse h1, _ => isFalse (fun c => h1 (List.cons.inj c).1)
    | _, isFalse h2 => isFalse (fun c => h2 (List.cons.inj c).2)

def Json.decEqFields : (a b : List (String × Json)) → Decidable (a = b)
  | [], [] => isTrue rfl
  | [], _ :: _ => isFalse (fun h => List.noConfusion h)
  | _ :: _, [] => isFalse (fun h => List.noConfusion h)
  | (k, v) :: xs, (l, w) :: ys =>
    if hk : k = l then
      match Json.decEq v w, Json.decEqFields xs ys with
      | isTrue h1, isTrue h2 => isTrue (by rw [hk, h1, h2])
      | isFalse h1, _ =>
        isFalse (fun c => h1 (congrArg Prod.snd (List.cons.inj c).1))
      | _, isFalse h2 => isFalse (fun c => h2 (List.cons.inj c).2)
    else isFalse (fun c => hk (congrArg Prod.fst (List.cons.inj c).1))

end

instance : DecidableEq Json := Json.decEq

instance {ε α : Type} [DecidableEq ε] [DecidableEq α] : DecidableEq (Except ε α) := fun a b =>
  match a, b with
  | .ok a, .ok b =>
    if h : a = b then isTrue (by rw [h]) else isFalse (fun c => h (Except.ok.inj c))
  | .ok _, .error _ => isFalse (fun h => Except.noConfusion h)
  | .error _, .ok _ => isFalse (fun h => Except.noConfusion h)
  | .error a, .error b =>
    if h : a = b then isTrue (by rw [h]) else isFalse (fun c => h (Except.error.inj c))

/-- Lookup of a key in a JSON object (first occurrence); `none` when the
value is not an object or the key is absent.  Used to state which keys a
serialized document contains. -/
def Json.lookup (j : Json) (k : String) : Option Json :=
  match j with
  | .obj fields => lookupFields fields
  | _ => none
where lookupFields : List (String × Json) → Option Json
  | [] => none
  | (k', v) :: rest => if k' = k then some v else lookupFields rest

/-- `MISC_ERROR_CODE` from `client.rs`. -/
def MISC_ERROR_CODE : Int := -1

/-- `METHOD_NOT_ALLOWED_ERROR_CODE` from `client.rs`. -/
def METHOD_NOT_ALLOWED_ERROR_CODE : Int := -32604

/-- `PARSE_ERROR_CODE` from `client.rs`. -/
def PARSE_ERROR_CODE : Int := -32700

/-- `RpcRequest<GenericRpcMethod>`: optional `id`, method name, positional
params (`Vec<Value>` for the generic method). -/
structure RpcRequest where
  id : Option Json
  method : String
  params : List Json
deriving DecidableEq

/-- `RpcError`: code, message, and the transport-status annotation
(`#[serde(skip)]`, hence never serialized). HTTP status codes as `Nat`. -/
structure RpcError where
  code : Int
  message : String
  status : Option Nat
deriving DecidableEq

/-- `RpcResponse<GenericRpcMethod>`. -/
structure RpcResponse where
  id : Option Json
  error : Option RpcError
  result : Option Json
deriving DecidableEq

/-- `SingleOrBatchRpcRequest`. -/
inductive SingleOrBatchRpcRequest where
  | Single (req : RpcRequest)
  | Batch (reqs : List RpcRequest)
deriving DecidableEq

/-- Serialization of `RpcRequest` (derived `Serialize`): fields in
declaration order; `id` is omitted entirely when `None`
(`skip_serializing_if = "Option::is_none"`). -/
def RpcRequest.toJson (r : RpcRequest) : Json :=
  Json.obj
    ((match r.id with
      | none => []
      | some v => [("id", v)]) ++
      [("method", Json.str r.method), ("params", Json.arr r.params)])

/-- Serialization of `RpcError` (derived `Serialize`): `code` and
`message`; the `status` field is `#[serde(skip)]`ped. -/
def RpcError.toJson (e : RpcError) : Json :=
  Json.obj [("code", Json.num e.code), ("message", Json.str e.message)]

/-- Serialization of `RpcResponse` (derived `Serialize`): all three fields
are emitted, an absent `Option` serializing as JSON `null`. -/
def RpcResponse.toJson (r : RpcResponse) : Json :=
  Json.obj
    [("id", (r.id.getD Json.null)),
     ("error", match r.error with
       | some e => e.toJson
       | none => Json.null),
     ("result", (r.result.getD Json.null))]

/-- Serialization of `SingleOrBatchRpcRequest`: `Single` as its object,
`Batch` as the array of its elements in order. -/
def SingleOrBatchRpcRequest.toJson : SingleOrBatchRpcRequest → Json
  | .Single r => r.toJson
  | .Batch rs => Json.arr (rs.map RpcRequest.toJson)

/-- Deserialization of an `Option<Value>`-typed field value in serde_json:
JSON `null` deserializes to `None`; any other value to `Some` of itself. -/
def decodeOptValue : Json → Option Json
  | .null => none
  | v => some v

/-- The hand-written `visit_map` loop of `SingleOrBatchRpcRequest`'s
`Deserialize`: keys are processed in order, later occurrences overwriting
earlier ones (`id`, `method`, `params` are each re-assigned through an
`Option`-typed `next_value`, so a `null` value resets the slot to `None`);
unrecognized keys are decoded as arbitrary JSON and discarded.  After the
loop, missing `method` or `params` is a "missing field" error.
`visitKey` is one iteration of the loop: the effect of one `key => ...`
match arm on the three slots. -/
def visitKey (k : String) (v : Json) (idv : Option Json) (methodv : Option String)
    (paramsv : Option (List Json)) :
    Except String (Option Json × Option String × Option (List Json)) :=
  if k = "id" then .ok (decodeOptValue v, methodv, paramsv)
  else if k = "method" then
    match v with
    | .null => .ok (idv, none, paramsv)
    | .str s => .ok (idv, some s, paramsv)
    | _ => .error "invalid type for field method"
  else if k = "params" then
    match v with
    | .null => .ok (idv, methodv, none)
    | .arr xs => .ok (idv, methodv, some xs)
    | _ => .error "invalid type for field params"
  else .ok (idv, methodv, paramsv)

def visitMapGo : List (String × Json) → Option Json → Option String → Option (List Json) →
    Except String RpcRequest
  | [], idv, methodv, paramsv =>
    match methodv with
    | none => .error "missing field method"
    | some m =>
      match paramsv with
      | none => .error "missing field params"
      | some ps => .ok { id := idv, method := m, params := ps }
  | (k, v) :: rest, idv, methodv, paramsv =>
    match visitKey k v idv methodv paramsv with
    | .error e => .error e
    | .ok (idv', methodv', paramsv') => visitMapGo rest idv' methodv' paramsv'

/-- The derived `Deserialize` of `RpcRequest<GenericRpcMethod>` (used for
batch elements): requires a JSON object; duplicate known fields are an
error; `method` must be a string and `params` an array; unknown fields are
ignored; a missing `id` defaults to `None`, a `null` `id` decodes to
`None`. -/
def derivedGo : List (String × Json) → Option (Option Json) → Option String →
    Option (List Json) → Except String RpcRequest
  | [], idSeen, methodv, paramsv =>
    match methodv with
    | none => .error "missing field method"
    | some m =>
      match paramsv with
      | none => .error "missing field params"
      | some ps =>
        .ok { id := (match idSeen with | some i => i | none => none), method := m, params := ps }
  | (k, v) :: rest, idSeen, methodv, paramsv =>
    if k = "id" then
      match idSeen with
      | some _ => .error "duplicate field id"
      | none => derivedGo rest (some (decodeOptValue v)) methodv paramsv
    else if k = "method" then
      match methodv with
      | some _ => .error "duplicate field method"
      | none =>
        match v with
        | .str s => derivedGo rest idSeen (some s) paramsv
        | _ => .error "invalid type for field method"
    else if k = "params" then
      match paramsv with
      | some _ => .error "duplicate field params"
      | none =>
        match v with
        | .arr xs => derivedGo rest idSeen methodv (some xs)
        | _ => .error "invalid type for field params"
    else
      derivedGo rest idSeen methodv paramsv

/-- Derived deserializer entry point: batch elements must be objects. -/
def decodeRpcRequestDerived : Json → Except String RpcRequest
  | .obj fields => derivedGo fields none none none
  | _ => .error "invalid type: expected struct RpcRequest"

/-- `visit_seq`: elements decoded one by one via the derived deserializer,
stopping at the first failure. -/
def decodeBatchElems : List Json → Except String (List RpcRequest)
  | [] => .ok []
  | x :: rest =>
    match decodeRpcRequestDerived x with
    | .error e => .error e
    | .ok r =>
      match decodeBatchElems rest with
      | .error e => .error e
      | .ok rs => .ok (r :: rs)

/-- `SingleOrBatchRpcRequest::deserialize` (`deserialize_any`): a JSON
array decodes as a batch, a JSON object as a single request, anything else
is a type error. -/
def decodeSingleOrBatch : Json → Except String SingleOrBatchRpcRequest
  | .arr xs =>
    match decodeBatchElems xs with
    | .error e => .error e
    | .ok rs => .ok (.Batch rs)
  | .obj fields =>
    match visitMapGo fields none none none with
    | .error e => .error e
    | .ok r => .ok (.Single r)
  | _ => .error "invalid type: expected a single rpc request, or a batch of rpc requests"

/-- An emitted HTTP response: status code and JSON body.  (The
`Content-Length` header, always set from the body, is not modelled.) -/
structure HttpOut where
  status : Nat
  body : Json
deriving DecidableEq

/-- `RpcResponse::into_response`: the body is the JSON encoding of the
response; the status is the error's transport-status annotation when
present, else `INTERNAL_SERVER_ERROR` (500) when an error is present,
else `OK` (200).  (In the source the body is serialized before
`status.take()` runs, but `status` is `#[serde(skip)]`ped, so the body is
the serialization either way.) -/
def RpcResponse.intoResponse (r : RpcResponse) : HttpOut :=
  { status :=
      match r.error with
      | some e =>
        match e.status with
        | some s => s
        | none => 500
      | none => 200,
    body := r.toJson }

/-- `impl From<RpcError> for RpcResponse<GenericRpcMethod>`: an error
document with no `id` and no `result`. -/
def RpcResponse.ofError (e : RpcError) : RpcResponse :=
  { id := none, error := some e, result := none }

/-- The type of the interception function handed to `send`:
`Fn(&str, &RpcRequest) -> Result<Option<RpcResponse>, RpcError>`. -/
abbrev Intercept := String → RpcRequest → Except RpcError (Option RpcResponse)

/-- `Result::transpose` on the interception outcome:
`Ok(Some(r))` becomes `Some(Ok(r))`, `Ok(None)` becomes `None`,
`Err(e)` becomes `Some(Err(e))`. -/
def transposeOut : Except RpcError (Option RpcResponse) → Option (Except RpcError RpcResponse)
  | .ok none => none
  | .ok (some r) => some (.ok r)
  | .error e => some (.error e)

/-- The `res.unwrap_or_else(|e| RpcResponse { id: req.id.clone(), result:
None, error: Some(e) })` step of the single-request path: a success
opinion is used verbatim, an error opinion is wrapped in a response
carrying the original request's `id`. -/
def unwrapOrErrResponse (req : RpcRequest) : Except RpcError RpcResponse → RpcResponse
  | .ok r => r
  | .error e => { id := req.id, error := some e, result := none }

/-- The single-request arm of `RpcClient::send`.  `upstream` is the
oracle for the verbatim pass-through POST (its `.error` outcomes are the
path-parse, credential, request-build and transport failures that the
source propagates out of `send` with `?`). -/
def sendSingle (upstream : String → RpcRequest → Except String HttpOut) (path : String)
    (icpt : Intercept) (req : RpcRequest) : Except String HttpOut :=
  match transposeOut (icpt path req) with
  | some res => .ok ((unwrapOrErrResponse req res).intoResponse)
  | none => upstream path req

/-- Contents of the `intercepted` channel, in arrival order: for each
request on which the interception function expressed an opinion, the
`res.map(|res| (idx, res))` value that was sent
(`Result<(usize, RpcResponse), RpcError>`). -/
def interceptedOf (icpt : Intercept) (path : String) (arrival : List (Nat × RpcRequest)) :
    List (Except RpcError (Nat × RpcResponse)) :=
  arrival.filterMap (fun p =>
    match icpt path p.2 with
    | .ok none => none
    | .ok (some res) => some (.ok (p.1, res))
    | .error e => some (.error e))

/-- Contents of the `forwarded` channel, in arrival order: the
index-tagged requests on which the interception function expressed no
opinion. -/
def forwardedOf (icpt : Intercept) (path : String) (arrival : List (Nat × RpcRequest)) :
    List (Nat × RpcRequest) :=
  arrival.filterMap (fun p =>
    match icpt path p.2 with
    | .ok none => some p
    | _ => none)

/-- `TryStreamExt::try_collect` on a fully-buffered channel of `Result`s:
collects the `Ok` values in order, failing with the first `Err`. -/
def tryCollect : List (Except ε α) → Except ε (List α)
  | [] => .ok []
  | .error e :: _ => .error e
  | .ok x :: rest =>
    match tryCollect rest with
    | .error e => .error e
    | .ok xs => .ok (x :: xs)

/-- The inner `send_batch` function: unzips the forwarded channel into
`idxs` and `new_batch`, POSTs the serialized `new_batch` to the upstream,
decodes the returned array of responses, and zips the decoded responses
back onto `idxs` positionally (`zip` truncates at the shorter list, as in
the source).  `upstream` maps the serialized request body to the decoded
response array; its `.error` outcomes are the path-parse, credential,
transport and decode failures the source maps into `RpcError`. -/
def send_batch (upstream : Json → Except RpcError (List RpcResponse))
    (forwarded : List (Nat × RpcRequest)) : Except RpcError (List (Nat × RpcResponse)) :=
  let idxs := forwarded.map Prod.fst
  let new_batch := forwarded.map Prod.snd
  match upstream (Json.arr (new_batch.map RpcRequest.toJson)) with
  | .error e => .error e
  | .ok rs => .ok (idxs.zip rs)

/-- Fuel-driven merge so that the definition is kernel-reducible; with
fuel at least the sum of the lengths it implements the
`itertools::merge_by` strategy: take from the first list while the
predicate holds of the two heads. -/
def mergeByFuel (p : α → α → Bool) : Nat → List α → List α → List α
  | 0, xs, ys => xs ++ ys
  | _ + 1, [], ys => ys
  | _ + 1, x :: xs, [] => x :: xs
  | n + 1, x :: xs, y :: ys =>
    if p x y then x :: mergeByFuel p n xs (y :: ys) else y :: mergeByFuel p n (x :: xs) ys

/-- `itertools::Itertools::merge_by`. -/
def mergeBy (p : α → α → Bool) (xs ys : List α) : List α :=
  mergeByFuel p (xs.length + ys.length) xs ys

/-- The batch arm of `RpcClient::send`.  `arrival` is the index-tagged
batch in the order the concurrent interception invocations complete (a
permutation of `reqs.enum`).  `try_join!` over `send_batch` and
`try_collect` is determinised left-first; either failure produces the
single error document `RpcResponse::from(e).into_response()`.  On success
the two index-tagged lists are merged with `merge_by (a.0 < b.0)`, the
indices are dropped, and the response array is emitted with the
builder's default status (200). -/
def sendBatch (upstream : Json → Except RpcError (List RpcResponse)) (path : String)
    (icpt : Intercept) (arrival : List (Nat × RpcRequest)) : HttpOut :=
  match send_batch upstream (forwardedOf icpt path arrival),
      tryCollect (interceptedOf icpt path arrival) with
  | .error e, _ => (RpcResponse.ofError e).intoResponse
  | .ok _, .error e => (RpcResponse.ofError e).intoResponse
  | .ok forwarded, .ok intercepted =>
    let res_vec := (mergeBy (fun a b => decide (a.1 < b.1)) forwarded intercepted).map Prod.snd
    { status := 200, body := Json.arr (res_vec.map RpcResponse.toJson) }

/-- `RpcClient::send`: dispatch on single versus batch.  For a batch the
channel arrival order `arrival` (a permutation of the `enumerate`d batch)
is passed explicitly; the single arm ignores it. -/
def RpcClient.send (upstreamSingle : String → RpcRequest → Except String HttpOut)
    (upstreamBatch : Json → Except RpcError (List RpcResponse)) (path : String)
    (icpt : Intercept) (arrival : List (Nat × RpcRequest)) :
    SingleOrBatchRpcRequest → Except String HttpOut
  | .Single req => sendSingle upstreamSingle path icpt req
  | .Batch _ => .ok (sendBatch upstreamBatch path icpt arrival)

/-- Standard base64 alphabet. -/
def base64Alphabet : List Char :=
  "ABCDEFGHIJKLMNOPQRSTUVWXYZabcdefghijklmnopqrstuvwxyz0123456789+/".toList

/-- Base64 encoding of a byte list (RFC 4648, with padding). -/
def base64EncodeBytes : List Nat → String
  | [] => ""
  | [a] =>
    String.mk [base64Alphabet.getD (a / 4) 'A',
      base64Alphabet.getD (a % 4 * 16) 'A'] ++ "=="
  | [a, b] =>
    String.mk [base64Alphabet.getD (a / 4) 'A',
      base64Alphabet.getD (a % 4 * 16 + b / 16) 'A',
      base64Alphabet.getD (b % 16 * 4) 'A'] ++ "="
  | a :: b :: c :: rest =>
    String.mk [base64Alphabet.getD (a / 4) 'A',
      base64Alphabet.getD (a % 4 * 16 + b / 16) 'A',
      base64Alphabet.getD (b % 16 * 4 + c / 64) 'A',
      base64Alphabet.getD (c % 64) 'A'] ++ base64EncodeBytes rest

/-- UTF-8 encoding of a Unicode code point. -/
def utf8Bytes (n : Nat) : List Nat :=
  if n < 0x80 then [n]
  else if n < 0x800 then [0xC0 + n / 64, 0x80 + n % 64]
  else if n < 0x10000 then [0xE0 + n / 4096, 0x80 + n / 64 % 64, 0x80 + n % 64]
  else [0xF0 + n / 262144, 0x80 + n / 4096 % 64, 0x80 + n / 64 % 64, 0x80 + n % 64]

/-- UTF-8 bytes of a string. -/
def strBytes (s : String) : List Nat :=
  s.data.flatMap (fun c => utf8Bytes c.toNat)

/-- `base64::encode` over a string's UTF-8 bytes. -/
def base64Encode (s : String) : String :=
  base64EncodeBytes (strBytes s)

/-- `AuthSource`: fixed credentials with a precomputed header, or a
cookie file with a cached `(modification-time, header)` snapshot.  File
modification times as `Nat`, header values as `String`. -/
inductive AuthSource where
  | Const (username password : String) (header : String)
  | CookieFile (path : String) (cached : Option (Nat × String))
deriving DecidableEq

/-- `AuthSource::from_config`: exactly the source's `match` on the three
optional arguments.  (The `HeaderValue` parse of `"Basic " ++ base64`
cannot fail — the string is ASCII — so the `Const` arm is total.) -/
def AuthSource.from_config (user : Option String) (password : Option String)
    (file : Option String) : Except String AuthSource :=
  match user, password, file with
  | some username, some password, none =>
    .ok (.Const username password ("Basic " ++ base64Encode (username ++ ":" ++ password)))
  | none, none, some cookie_file => .ok (.CookieFile cookie_file none)
  | none, none, none => .error "missing authentication information"
  | _, _, _ =>
    .error "either a password and possibly a username or a cookie file must be specified"

/-- `Except` success test. -/
def exceptIsOk : Except ε α → Bool
  | .ok _ => true
  | .error _ => false

/-- Strip one trailing newline character if present (the
`if cookie.ends_with('\n') then cookie.pop()` step), phrased on the
character list so that it evaluates by reduction. -/
def stripTrailingNewline (s : String) : String :=
  if s.data.getLast? = some '\n' then String.mk s.data.dropLast else s

/-- `AuthSource::load_from_file` on the file's contents: strip one
trailing newline if present, then base64-encode. -/
def load_from_file (contents : String) : String :=
  base64Encode (stripTrailingNewline contents)

/-- Does the cached snapshot cover the file's current modification time? -/
def cacheHit (modified : Nat) : Option (Nat × String) → Bool
  | some c => modified = c.1
  | none => false

/-- One `AuthSource::try_load` call on a `CookieFile` source, as a
function of the file's current modification time and contents and of the
cached snapshot.  Returns the header, the snapshot after the call, and
whether the file's contents were read.  (The file is assumed present and
readable; I/O failures abort the call in the source and are outside the
claims modelled here.) -/
def try_load_cookie (modified : Nat) (contents : String) (cached : Option (Nat × String)) :
    String × Option (Nat × String) × Bool :=
  match cached with
  | some c =>
    if modified = c.1 then (c.2, cached, false)
    else
      let header := "Basic " ++ load_from_file contents
      (header, some (modified, header), true)
  | none =>
    let header := "Basic " ++ load_from_file contents
    (header, some (modified, header), true)

/-- `AuthSource::try_load` on a `Const` source: the precomputed header,
no I/O. -/
def try_load_const (_username _password header : String) : String :=
  header

/-- Index-tagged intercepted results, in arrival order, assuming no
interception errors (the payloads of `interceptedOf`'s `.ok`s). -/
def interceptedPairs (icpt : Intercept) (path : String) (arrival : List (Nat × RpcRequest)) :
    List (Nat × RpcResponse) :=
  arrival.filterMap (fun p =>
    match icpt path p.2 with
    | .ok (some res) => some (p.1, res)
    | _ => none)

/-- The per-request response delivered on a successful batch: the
interception opinion if there was one, else the upstream's answer `f`. -/
def expectedResp (icpt : Intercept) (path : String) (f : RpcRequest → RpcResponse)
    (r : RpcRequest) : RpcResponse :=
  match icpt path r with
  | .ok (some res) => res
  | _ => f r

theorem mergeByFuel_irrel (p : α → α → Bool) :
    ∀ (n m : Nat) (xs ys : List α), xs.length + ys.length ≤ n →
      xs.length + ys.length ≤ m →
      mergeByFuel p n xs ys = mergeByFuel p m xs ys := by
  intro n
  induction n with
  | zero =>
    intro m xs ys hn _
    cases xs with
    | nil =>
      cases ys with
      | nil => cases m <;> rfl
      | cons y u => simp at hn
    | cons x t => simp at hn
  | succ n ih =>
    intro m xs ys hn hm
    cases xs with
    | nil =>
      cases ys with
      | nil => cases m <;> rfl
      | cons y u =>
        cases m with
        | zero => simp at hm
        | succ m => rfl
    | cons x t =>
      cases ys with
      | nil =>
        cases m with
        | zero => simp at hm
        | succ m => rfl
      | cons y u =>
        cases m with
        | zero => simp at hm
        | succ m =>
          simp only [mergeByFuel]
          have h1 : t.length + (y :: u).length ≤ n := by simp at hn ⊢; omega
          have h2 : t.length + (y :: u).length ≤ m := by simp at hm ⊢; omega
          have h3 : (x :: t).length + u.length ≤ n := by simp at hn ⊢; omega
          have h4 : (x :: t).length + u.length ≤ m := by simp at hm ⊢; omega
          by_cases hp : p x y
          · rw [if_pos hp, if_pos hp, ih m t (y :: u) h1 h2]
          · rw [if_neg hp, if_neg hp, ih m (x :: t) u h3 h4]

theorem mergeBy_nil_left (p : α → α → Bool) (ys : List α) : mergeBy p [] ys = ys := by
  cases ys <;> rfl

theorem mergeBy_cons_nil (p : α → α → Bool) (x : α) (xs : List α) :
    mergeBy p (x :: xs) [] = x :: xs := rfl

theorem mergeBy_cons_cons (p : α → α → Bool) (x y : α) (xs ys : List α) :
    mergeBy p (x :: xs) (y :: ys) =
      if p x y then x :: mergeBy p xs (y :: ys) else y :: mergeBy p (x :: xs) ys := by
  unfold mergeBy
  rw [mergeByFuel_irrel p ((x :: xs).length + (y :: ys).length)
    (xs.length + (y :: ys).length + 1) (x :: xs) (y :: ys) (le_refl _)
    (by simp only [List.length_cons]; omega)]
  simp only [mergeByFuel]
  by_cases hp : p x y
  · rw [if_pos hp, if_pos hp]
  · rw [if_neg hp, if_neg hp]
    exact congrArg (y :: ·)
      (mergeByFuel_irrel p _ _ (x :: xs) ys (by simp only [List.length_cons]; omega)
        (by simp only [List.length_cons]; omega))

theorem mem_forwardedOf (icpt : Intercept) (path : String) (l : List (Nat × RpcRequest))
    (q : Nat × RpcRequest) (h : q ∈ forwardedOf icpt path l) : q ∈ l := by
  unfold forwardedOf at h
  rw [List.mem_filterMap] at h
  rcases h with ⟨a, ha, he⟩
  cases hc : icpt path a.2 with
  | error e => rw [hc] at he; cases he
  | ok o =>
    cases o with
    | none => rw [hc] at he; injection he with he; rw [← he]; exact ha
    | some r => rw [hc] at he; cases he

theorem mem_interceptedPairs_fst (icpt : Intercept) (path : String)
    (l : List (Nat × RpcRequest)) (b : Nat × RpcResponse)
    (h : b ∈ interceptedPairs icpt path l) : ∃ q ∈ l, b.1 = q.1 := by
  unfold interceptedPairs at h
  rw [List.mem_filterMap] at h
  rcases h with ⟨a, ha, he⟩
  cases hc : icpt path a.2 with
  | error e => rw [hc] at he; cases he
  | ok o =>
    cases o with
    | none => rw [hc] at he; cases he
    | some r =>
      rw [hc] at he; injection he with he
      exact ⟨a, ha, by rw [← he]⟩

theorem tryCollect_interceptedOf (icpt : Intercept) (path : String) :
    ∀ (l : List (Nat × RpcRequest)),
      (∀ p ∈ l, ∀ e, icpt path p.2 ≠ .error e) →
      tryCollect (interceptedOf icpt path l) = .ok (interceptedPairs icpt path l) := by
  intro l
  induction l with
  | nil => intro _; rfl
  | cons p t ih =>
    intro h
    have hp := h p (by simp)
    have ht : ∀ q ∈ t, ∀ e, icpt path q.2 ≠ .error e := fun q hq => h q (by simp [hq])
    unfold interceptedOf interceptedPairs
    simp only [List.filterMap_cons]
    cases hc : icpt path p.2 with
    | error e => exact absurd hc (hp e)
    | ok o =>
      cases o with
      | none =>
        have := ih ht
        unfold interceptedOf interceptedPairs at this
        exact this
      | some r =>
        have := ih ht
        unfold interceptedOf interceptedPairs at this
        simp only [tryCollect, this]

theorem zip_map_fst_map_snd (l : List (Nat × RpcRequest)) (f : RpcRequest → RpcResponse) :
    (l.map Prod.fst).zip ((l.map Prod.snd).map f) = l.map (fun p => (p.1, f p.2)) := by
  induction l with
  | nil => rfl
  | cons p t ih => simp only [List.map_cons, List.zip_cons_cons, ih]

theorem enumFrom_map_snd (k : Nat) (l : List α) :
    (List.enumFrom k l).map Prod.snd = l := by
  induction l generalizing k with
  | nil => rfl
  | cons x t ih => simp [List.enumFrom, ih]

theorem mem_enumFrom_fst_ge : ∀ (l : List α) (k : Nat) (p : Nat × α),
    p ∈ List.enumFrom k l → k ≤ p.1 := by
  intro l
  induction l with
  | nil => intro k p h; simp [List.enumFrom] at h
  | cons x t ih =>
    intro k p h
    simp only [List.enumFrom, List.mem_cons] at h
    rcases h with h | h
    · rw [h]
    · have := ih (k + 1) p h
      omega

theorem pairwise_fst_lt_enumFrom : ∀ (l : List α) (k : Nat),
    List.Pairwise (fun a b : Nat × α => a.1 < b.1) (List.enumFrom k l) := by
  intro l
  induction l with
  | nil => intro k; simp [List.enumFrom]
  | cons x t ih =>
    intro k
    simp only [List.enumFrom, List.pairwise_cons]
    constructor
    · intro p hp
      have := mem_enumFrom_fst_ge t (k + 1) p hp
      exact Nat.lt_of_lt_of_le (Nat.lt_succ_self k) this
    · exact ih (k + 1)

theorem mergeBy_nil_right (p : α → α → Bool) (xs : List α) : mergeBy p xs [] = xs := by
  cases xs <;> rfl

theorem forwardedOf_cons (icpt : Intercept) (path : String) (p : Nat × RpcRequest)
    (t : List (Nat × RpcRequest)) :
    forwardedOf icpt path (p :: t) =
      match icpt path p.2 with
      | .ok none => p :: forwardedOf icpt path t
      | _ => forwardedOf icpt path t := by
  unfold forwardedOf
  rw [List.filterMap_cons]
  cases icpt path p.2 with
  | error e => rfl
  | ok o => cases o <;> rfl

theorem interceptedPairs_cons (icpt : Intercept) (path : String) (p : Nat × RpcRequest)
    (t : List (Nat × RpcRequest)) :
    interceptedPairs icpt path (p :: t) =
      match icpt path p.2 with
      | .ok (some r) => (p.1, r) :: interceptedPairs icpt path t
      | _ => interceptedPairs icpt path t := by
  unfold interceptedPairs
  rw [List.filterMap_cons]
  cases icpt path p.2 with
  | error e => rfl
  | ok o => cases o <;> rfl

theorem mergeBy_lt_cons_left {x y : Nat × RpcResponse} (xs ys : List (Nat × RpcResponse))
    (h : x.1 < y.1) :
    mergeBy (fun a b : Nat × RpcResponse => decide (a.1 < b.1)) (x :: xs) (y :: ys) =
      x :: mergeBy (fun a b : Nat × RpcResponse => decide (a.1 < b.1)) xs (y :: ys) := by
  rw [mergeBy_cons_cons]
  simp [h]

theorem mergeBy_not_lt_cons_right {x y : Nat × RpcResponse} (xs ys : List (Nat × RpcResponse))
    (h : ¬ x.1 < y.1) :
    mergeBy (fun a b : Nat × RpcResponse => decide (a.1 < b.1)) (x :: xs) (y :: ys) =
      y :: mergeBy (fun a b : Nat × RpcResponse => decide (a.1 < b.1)) (x :: xs) ys := by
  rw [mergeBy_cons_cons]
  simp [h]

/-- Merging the two index-tagged channels of a batch whose arrival order
has strictly increasing indices (and no interception errors) restores the
arrival order itself: the `merge_by` of the forwarded answers and the
intercepted answers is the arrival list mapped to its per-request
responses. -/
theorem mergeBy_channels (icpt : Intercept) (path : String) (f : RpcRequest → RpcResponse) :
    ∀ (l : List (Nat × RpcRequest)),
      List.Pairwise (fun a b : Nat × RpcRequest => a.1 < b.1) l →
      (∀ p ∈ l, ∀ e, icpt path p.2 ≠ .error e) →
      mergeBy (fun a b : Nat × RpcResponse => decide (a.1 < b.1))
        ((forwardedOf icpt path l).map (fun p => (p.1, f p.2)))
        (interceptedPairs icpt path l) =
      l.map (fun p => (p.1, expectedResp icpt path f p.2)) := by
  intro l
  induction l with
  | nil => intro _ _; rfl
  | cons p t ih =>
    intro hpw herr
    rw [List.pairwise_cons] at hpw
    obtain ⟨hlt, hpwt⟩ := hpw
    have herrt : ∀ q ∈ t, ∀ e, icpt path q.2 ≠ .error e := fun q hq => herr q (by simp [hq])
    have iht := ih hpwt herrt
    rw [List.map_cons, forwardedOf_cons, interceptedPairs_cons]
    cases hc : icpt path p.2 with
    | error e => exact absurd hc (herr p (by simp) e)
    | ok o =>
      cases o with
      | none =>
        simp only [List.map_cons]
        rw [show expectedResp icpt path f p.2 = f p.2 by unfold expectedResp; rw [hc]]
        cases hB : interceptedPairs icpt path t with
        | nil =>
          rw [hB] at iht
          rw [mergeBy_nil_right] at iht
          rw [mergeBy_nil_right, iht]
        | cons b bs =>
          have hb : b ∈ interceptedPairs icpt path t := by
            rw [hB]; exact List.mem_cons_self _ _
          obtain ⟨q, hq, hbq⟩ := mem_interceptedPairs_fst icpt path t b hb
          have hlt2 : (p.1, f p.2).1 < b.1 := by
            simp only [hbq]
            exact hlt q hq
          rw [hB] at iht
          rw [mergeBy_lt_cons_left _ _ hlt2, iht]
      | some r =>
        rw [show expectedResp icpt path f p.2 = r by unfold expectedResp; rw [hc]]
        cases hA : (forwardedOf icpt path t).map (fun p => (p.1, f p.2)) with
        | nil =>
          rw [hA] at iht
          rw [mergeBy_nil_left] at iht
          rw [mergeBy_nil_left, iht]
        | cons a as =>
          have ha : a ∈ (forwardedOf icpt path t).map (fun p => (p.1, f p.2)) := by
            rw [hA]; exact List.mem_cons_self _ _
          rw [List.mem_map] at ha
          obtain ⟨q, hq, haq⟩ := ha
          have hqt := mem_forwardedOf icpt path t q hq
          have hnot : ¬ a.1 < (p.1, r).1 := by
            rw [← haq]
            simp only []
            have := hlt q hqt
            omega
          rw [hA] at iht
          rw [mergeBy_not_lt_cons_right _ _ hnot, iht]

/-- When the upstream answers a serialized batch pointwise by `f`,
`send_batch` succeeds with each forwarded request's index paired to its
own answer. -/
theorem send_batch_pointwise (upstream : Json → Except RpcError (List RpcResponse))
    (f : RpcRequest → RpcResponse) (forwarded : List (Nat × RpcRequest))
    (hf : ∀ qs : List RpcRequest,
      upstream (Json.arr (qs.map RpcRequest.toJson)) = .ok (qs.map f)) :
    send_batch upstream forwarded = .ok (forwarded.map (fun p => (p.1, f p.2))) := by
  unfold send_batch
  simp only [hf ((forwarded.map Prod.snd)), zip_map_fst_map_snd]

/-- Unfolding `sendBatch` when both joined operations succeed. -/
theorem sendBatch_ok (upstream : Json → Except RpcError (List RpcResponse)) (path : String)
    (icpt : Intercept) (arrival : List (Nat × RpcRequest))
    (F : List (Nat × RpcResponse)) (I : List (Nat × RpcResponse))
    (hsb : send_batch upstream (forwardedOf icpt path arrival) = .ok F)
    (hic : tryCollect (interceptedOf icpt path arrival) = .ok I) :
    sendBatch upstream path icpt arrival =
      { status := 200,
        body := Json.arr
          (((mergeBy (fun a b : Nat × RpcResponse => decide (a.1 < b.1)) F I).map
            Prod.snd).map RpcResponse.toJson) } := by
  unfold sendBatch
  rw [hsb, hic]

theorem enum_map_expected (g : RpcRequest → RpcResponse) (reqs : List RpcRequest) :
    reqs.enum.map (fun p : Nat × RpcRequest => g p.2) = reqs.map g := by
  have h : reqs.enum = List.enumFrom 0 reqs := rfl
  rw [h]
  conv_rhs => rw [← enumFrom_map_snd 0 reqs]
  rw [List.map_map]
  rfl

theorem decodeOptValue_ne_null (v : Json) : decodeOptValue v ≠ some Json.null := by
  cases v <;> simp [decodeOptValue]

/-- One visitor iteration leaves the `id` slot untouched unless the key
is `"id"`, in which case the slot becomes `decodeOptValue` of the value. -/
theorem visitKey_id (k : String) (v : Json) (idv : Option Json) (mv : Option String)
    (pv : Option (List Json)) (idv' : Option Json) (mv' : Option String)
    (pv' : Option (List Json)) (h : visitKey k v idv mv pv = .ok (idv', mv', pv')) :
    idv' = if k = "id" then decodeOptValue v else idv := by
  unfold visitKey at h
  by_cases hid : k = "id"
  · rw [if_pos hid] at h
    rw [if_pos hid]
    injection h with h1
    exact (congrArg Prod.fst h1).symm
  · rw [if_neg hid] at h
    rw [if_neg hid]
    by_cases hm : k = "method"
    · rw [if_pos hm] at h
      cases v with
      | null => injection h with h1; exact (congrArg Prod.fst h1).symm
      | str s => injection h with h1; exact (congrArg Prod.fst h1).symm
      | bool b => cases h
      | num n => cases h
      | arr xs => cases h
      | obj fs => cases h
    · rw [if_neg hm] at h
      by_cases hp : k = "params"
      · rw [if_pos hp] at h
        cases v with
        | null => injection h with h1; exact (congrArg Prod.fst h1).symm
        | arr xs => injection h with h1; exact (congrArg Prod.fst h1).symm
        | bool b => cases h
        | num n => cases h
        | str s => cases h
        | obj fs => cases h
      · rw [if_neg hp] at h
        injection h with h1
        exact (congrArg Prod.fst h1).symm

/-- The `id` slot computed by the `visit_map` loop is a last-wins fold
over the object's keys. -/
theorem visitMapGo_id (fields : List (String × Json)) :
    ∀ (idv : Option Json) (mv : Option String) (pv : Option (List Json)) (r : RpcRequest),
      visitMapGo fields idv mv pv = .ok r →
      r.id = fields.foldl
        (fun acc kv => if kv.1 = "id" then decodeOptValue kv.2 else acc) idv := by
  induction fields with
  | nil =>
    intro idv mv pv r h
    unfold visitMapGo at h
    cases mv with
    | none => cases h
    | some m =>
      cases pv with
      | none => cases h
      | some ps =>
        injection h with h
        rw [← h]
        rfl
  | cons kv rest ih =>
    intro idv mv pv r h
    obtain ⟨k, v⟩ := kv
    rw [List.foldl_cons]
    unfold visitMapGo at h
    cases hk : visitKey k v idv mv pv with
    | error e => rw [hk] at h; cases h
    | ok st =>
      obtain ⟨idv', mv', pv'⟩ := st
      rw [hk] at h
      have hid := visitKey_id k v idv mv pv idv' mv' pv' hk
      have hr := ih idv' mv' pv' r h
      rw [hr, hid]

/-- The last-wins `id` fold never produces an explicit JSON `null`
(a `null` value resets the slot to `None` instead). -/
theorem foldl_id_ne_null (fields : List (String × Json)) :
    ∀ (idv : Option Json), idv ≠ some Json.null →
      fields.foldl (fun acc kv => if kv.1 = "id" then decodeOptValue kv.2 else acc) idv ≠
        some Json.null := by
  induction fields with
  | nil => intro idv h; exact h
  | cons kv rest ih =>
    intro idv h
    rw [List.foldl_cons]
    by_cases hid : kv.1 = "id"
    · rw [if_pos hid]
      exact ih _ (decodeOptValue_ne_null kv.2)
    · rw [if_neg hid]
      exact ih _ h

/-- The serialized request's `id` key is exactly the request's `id`
field: present with its verbatim value when `Some`, absent when `None`. -/
theorem toJson_lookup_id (r : RpcRequest) : (r.toJson).lookup "id" = r.id := by
  cases hid : r.id with
  | none =>
    unfold RpcRequest.toJson
    rw [hid]
    rfl
  | some v =>
    unfold RpcRequest.toJson
    rw [hid]
    rfl

/-- Claim C4 (confirmed): in the batch case of `send`, if the upstream
operation for the forwarded subset fails (transport, decode or
credential-resolution failure — the oracle's `.error` outcomes), the
whole call returns the single error document
`RpcResponse::from(e).into_response()` instead of any array; no locally
intercepted results appear in it. -/
theorem batch_upstream_failure_single_doc
    (upstreamS : String → RpcRequest → Except String HttpOut)
    (upstreamB : Json → Except RpcError (List RpcResponse)) (path : String) (icpt : Intercept)
    (reqs : List RpcRequest) (arrival : List (Nat × RpcRequest)) (e : RpcError)
    (hup : upstreamB (Json.arr (((forwardedOf icpt path arrival).map Prod.snd).map
      RpcRequest.toJson)) = .error e) :
    RpcClient.send upstreamS upstreamB path icpt arrival (.Batch reqs) =
      .ok ((RpcResponse.ofError e).intoResponse) := by
  have hsb : send_batch upstreamB (forwardedOf icpt path arrival) = .error e := by
    simp only [send_batch]
    rw [hup]
  simp only [RpcClient.send]
  unfold sendBatch
  rw [hsb]

/-- Witness for `batch_upstream_failure_single_doc` at a concrete batch
with one forwarded element and a failing upstream. -/
theorem batch_upstream_failure_single_doc_witness :
    RpcClient.send (fun _ _ => .error "unused")
      (fun _ => .error { code := -1, message := "connection refused", status := none }) "/"
      (fun _ _ => .ok none)
      [(0, { id := some (Json.num 1), method := "a", params := [] })]
      (.Batch [{ id := some (Json.num 1), method := "a", params := [] }]) =
      .ok ((RpcResponse.ofError
        { code := -1, message := "connection refused", status := none }).intoResponse) :=
  batch_upstream_failure_single_doc _ _ "/" _ _ _ _ (by decide)

/-- Claim C6 (confirmed): `from_config(user, password, file)` succeeds
exactly when a username/password pair is supplied with no cookie file, or
a cookie file is supplied with neither username nor password; every other
combination (both modes, neither, or a partial pair) is a configuration
error. -/
theorem from_config_ok_iff (user password file : Option String) :
    exceptIsOk (AuthSource.from_config user password file) = true ↔
      ((user.isSome = true ∧ password.isSome = true ∧ file = none) ∨
        (user = none ∧ password = none ∧ file.isSome = true)) := by
  cases user <;> cases password <;> cases file <;>
    simp [AuthSource.from_config, exceptIsOk]

/-- Claim C8 (confirmed): `into_response` picks the error's transport
status when present, `INTERNAL_SERVER_ERROR` (500) when an error is
present without one, `OK` (200) otherwise; the body is the JSON encoding
of the response, and that encoding never depends on the transport-status
annotation. -/
theorem intoResponse_spec (r : RpcResponse) (i : Option Json) (code : Int) (msg : String)
    (s1 s2 : Option Nat) (res : Option Json) :
    (r.intoResponse).body = r.toJson ∧
    (r.intoResponse).status =
      (match r.error with
       | some e => e.status.getD 500
       | none => 200) ∧
    RpcResponse.toJson
        { id := i, error := some { code := code, message := msg, status := s1 }, result := res } =
      RpcResponse.toJson
        { id := i, error := some { code := code, message := msg, status := s2 }, result := res } := by
  refine ⟨rfl, ?_, rfl⟩
  unfold RpcResponse.intoResponse
  cases r.error with
  | none => rfl
  | some e =>
    show (match e.status with | some s => s | none => 500) = e.status.getD 500
    cases e.status <;> rfl

/-- Claim C9 (confirmed): every serialized `RpcResponse` carries all
three keys `id`, `error`, `result`, an absent field appearing as an
explicit JSON `null`; the unit-failure error document
(`RpcResponse::from(e)`) serializes with `id: null` and `result: null`;
by contrast `RpcRequest` omits an absent `id` key entirely. -/
theorem response_serialization_keys (r : RpcResponse) (e : RpcError) :
    (r.toJson).lookup "id" = some (r.id.getD Json.null) ∧
    (r.toJson).lookup "error" =
      some (match r.error with | some er => er.toJson | none => Json.null) ∧
    (r.toJson).lookup "result" = some (r.result.getD Json.null) ∧
    ((RpcResponse.ofError e).toJson).lookup "id" = some Json.null ∧
    ((RpcResponse.ofError e).toJson).lookup "result" = some Json.null ∧
    (∀ req : RpcRequest, req.id = none → (req.toJson).lookup "id" = none) := by
  refine ⟨rfl, rfl, rfl, rfl, rfl, ?_⟩
  intro req hid
  rw [toJson_lookup_id req, hid]

/-- Witness for `response_serialization_keys`: a request with no `id`
serializes without an `id` key. -/
theorem response_serialization_keys_witness :
    (({ id := none, method := "x", params := [] } : RpcRequest).toJson).lookup "id" = none :=
  (response_serialization_keys { id := none, error := none, result := none }
    { code := -1, message := "", status := none }).2.2.2.2.2
    { id := none, method := "x", params := [] } rfl

/-- Claim C10 (confirmed): in the batch case the upstream POST is always
performed, even when every element was intercepted (or the batch was
empty): the forwarded collection is empty, the serialized body sent
upstream is the empty JSON array, and an upstream failure on that request
still aborts the whole batch with the single error document. -/
theorem batch_posts_even_when_all_intercepted
    (upstreamS : String → RpcRequest → Except String HttpOut)
    (upstreamB : Json → Except RpcError (List RpcResponse)) (path : String) (icpt : Intercept)
    (reqs : List RpcRequest) (arrival : List (Nat × RpcRequest)) (e : RpcError)
    (hall : ∀ p ∈ arrival, icpt path p.2 ≠ .ok none)
    (hup : upstreamB (Json.arr []) = .error e) :
    forwardedOf icpt path arrival = [] ∧
    RpcClient.send upstreamS upstreamB path icpt arrival (.Batch reqs) =
      .ok ((RpcResponse.ofError e).intoResponse) := by
  have hfwd : forwardedOf icpt path arrival = [] := by
    unfold forwardedOf
    rw [List.filterMap_eq_nil_iff]
    intro p hp
    cases hc : icpt path p.2 with
    | error e2 => rfl
    | ok o =>
      cases o with
      | none => exact absurd hc (hall p hp)
      | some r => rfl
  refine ⟨hfwd, ?_⟩
  have hsb : send_batch upstreamB (forwardedOf icpt path arrival) = .error e := by
    rw [hfwd]
    simp only [send_batch, List.map_nil]
    rw [hup]
  simp only [RpcClient.send]
  unfold sendBatch
  rw [hsb]

/-- Witness for `batch_posts_even_when_all_intercepted` at a concrete
fully intercepted batch with a failing upstream. -/
theorem batch_posts_even_when_all_intercepted_witness :
    forwardedOf
      (fun _ _ => .ok (some { id := some (Json.num 1), error := none, result := some (Json.num 7) }))
      "/" [(0, { id := some (Json.num 1), method := "a", params := [] })] = [] ∧
    RpcClient.send (fun _ _ => .error "unused")
      (fun _ => .error { code := -32700, message := "empty batch rejected", status := none }) "/"
      (fun _ _ => .ok (some { id := some (Json.num 1), error := none, result := some (Json.num 7) }))
      [(0, { id := some (Json.num 1), method := "a", params := [] })]
      (.Batch [{ id := some (Json.num 1), method := "a", params := [] }]) =
      .ok ((RpcResponse.ofError
        { code := -32700, message := "empty batch rejected", status := none }).intoResponse) :=
  batch_posts_even_when_all_intercepted _ _ "/" _ _ _ _
    (by intro p hp; simp) (by decide)

/-- Claim C1 counterexample: a batch whose single element draws an
interception error is answered with the single error document
`RpcResponse::from(e).into_response()` — an object body with `id: null` —
not with a batch array containing the error converted as in the single
case, even though the upstream operation succeeds. -/
theorem batch_intercept_error_single_doc_cex :
    RpcClient.send (fun _ _ => .error "unused") (fun _ => .ok []) "/"
      (fun _ _ => .error { code := -32604, message := "Method not allowed", status := none })
      (([{ id := some (Json.num 1), method := "a", params := [] }] : List RpcRequest).enum)
      (.Batch [{ id := some (Json.num 1), method := "a", params := [] }]) =
      .ok ((RpcResponse.ofError
        { code := -32604, message := "Method not allowed", status := none }).intoResponse) ∧
    ((RpcResponse.ofError
      { code := -32604, message := "Method not allowed", status := none }).intoResponse).body ≠
      Json.arr [({ id := some (Json.num 1),
                   error := some { code := -32604, message := "Method not allowed", status := none },
                   result := none } : RpcResponse).toJson] :=
  ⟨by decide, by decide⟩

/-- Claim C1 (amended): in the batch case, a per-element `RpcError`
returned by the interception function is sent through the intercepted
channel as an `Err`, so `try_collect` fails and the whole batch call
returns the single error document built from that error (with `id: null`,
not the element's `id`), rather than a batch array. -/
theorem batch_intercept_error_aborts
    (upstreamS : String → RpcRequest → Except String HttpOut)
    (upstreamB : Json → Except RpcError (List RpcResponse)) (path : String) (icpt : Intercept)
    (reqs : List RpcRequest) (arrival : List (Nat × RpcRequest)) (e : RpcError)
    (l : List (Nat × RpcResponse))
    (hic : tryCollect (interceptedOf icpt path arrival) = .error e)
    (hsb : send_batch upstreamB (forwardedOf icpt path arrival) = .ok l) :
    RpcClient.send upstreamS upstreamB path icpt arrival (.Batch reqs) =
      .ok ((RpcResponse.ofError e).intoResponse) ∧
    ((RpcResponse.ofError e).intoResponse).body.lookup "id" = some Json.null := by
  constructor
  · simp only [RpcClient.send]
    unfold sendBatch
    rw [hsb, hic]
  · rfl

/-- Witness for `batch_intercept_error_aborts` at a concrete one-element
batch whose interception declares a method-not-allowed error. -/
theorem batch_intercept_error_aborts_witness :
    RpcClient.send (fun _ _ => .error "unused") (fun _ => .ok []) "/"
      (fun _ _ => .error { code := -32604, message := "Method not allowed", status := none })
      [(0, { id := some (Json.num 1), method := "a", params := [] })]
      (.Batch [{ id := some (Json.num 1), method := "a", params := [] }]) =
      .ok ((RpcResponse.ofError
        { code := -32604, message := "Method not allowed", status := none }).intoResponse) :=
  (batch_intercept_error_aborts _ _ "/" _
    [{ id := some (Json.num 1), method := "a", params := [] }] _ _ []
    (by decide) (by decide)).1

/-- Claim C2 counterexample: a two-element batch, both declined by
interception, whose concurrent interception invocations complete in
reverse order (`arrival = [(1, q1), (0, q0)]`, a permutation of
`[q0, q1].enum`), is answered with the responses in completion order —
element 0 of the output is the upstream's answer to request 1 — so the
output is not the index-ordered array the claim demands. -/
theorem batch_completion_order_cex :
    [((1 : Nat), ({ id := some (Json.num 2), method := "b", params := [] } : RpcRequest)),
      (0, { id := some (Json.num 1), method := "a", params := [] })].Perm
      (([{ id := some (Json.num 1), method := "a", params := [] },
          { id := some (Json.num 2), method := "b", params := [] }] : List RpcRequest).enum) ∧
    RpcClient.send (fun _ _ => .error "unused")
      (fun j => match j with
        | Json.arr xs => .ok (xs.map (fun x => { id := none, error := none, result := some x }))
        | _ => .error { code := -1, message := "bad", status := none })
      "/" (fun _ _ => .ok none)
      [(1, { id := some (Json.num 2), method := "b", params := [] }),
        (0, { id := some (Json.num 1), method := "a", params := [] })]
      (.Batch [{ id := some (Json.num 1), method := "a", params := [] },
        { id := some (Json.num 2), method := "b", params := [] }]) =
      .ok { status := 200,
            body := Json.arr
              [({ id := none, error := none, result := some (RpcRequest.toJson { id := some (Json.num 2), method := "b", params := [] }) } : RpcResponse).toJson,
                ({ id := none, error := none, result := some (RpcRequest.toJson { id := some (Json.num 1), method := "a", params := [] }) } : RpcResponse).toJson] } ∧
    Json.arr
        [({ id := none, error := none, result := some (RpcRequest.toJson { id := some (Json.num 2), method := "b", params := [] }) } : RpcResponse).toJson,
          ({ id := none, error := none, result := some (RpcRequest.toJson { id := some (Json.num 1), method := "a", params := [] }) } : RpcResponse).toJson] ≠
      Json.arr
        [({ id := none, error := none, result := some (RpcRequest.toJson { id := some (Json.num 1), method := "a", params := [] }) } : RpcResponse).toJson,
          ({ id := none, error := none, result := some (RpcRequest.toJson { id := some (Json.num 2), method := "b", params := [] }) } : RpcResponse).toJson] :=
  ⟨by decide, by decide, by decide⟩

/-- Claim C2 (amended): for a batch of N requests, when no interception
invocation errors, the upstream answers the forwarded sub-batch
positionally, and the concurrent interception invocations complete in
submission order (`arrival = reqs.enum`), the emitted array has length N
and its element at position i is the response — locally intercepted or
upstream-produced — for the request at position i, for every partition
into intercepted and forwarded subsets. -/
theorem batch_order_preserved_in_submission_order
    (upstreamS : String → RpcRequest → Except String HttpOut)
    (upstreamB : Json → Except RpcError (List RpcResponse)) (path : String) (icpt : Intercept)
    (f : RpcRequest → RpcResponse) (reqs : List RpcRequest)
    (hf : ∀ qs : List RpcRequest,
      upstreamB (Json.arr (qs.map RpcRequest.toJson)) = .ok (qs.map f))
    (herr : ∀ r ∈ reqs, ∀ e, icpt path r ≠ .error e) :
    RpcClient.send upstreamS upstreamB path icpt reqs.enum (.Batch reqs) =
      .ok { status := 200,
            body := Json.arr ((reqs.map (expectedResp icpt path f)).map RpcResponse.toJson) } ∧
    (reqs.map (expectedResp icpt path f)).length = reqs.length := by
  constructor
  · have herr2 : ∀ p ∈ reqs.enum, ∀ e, icpt path p.2 ≠ .error e := by
      intro p hp e
      apply herr
      have h2 : p.2 ∈ reqs.enum.map Prod.snd := List.mem_map_of_mem Prod.snd hp
      rw [show reqs.enum = List.enumFrom 0 reqs from rfl, enumFrom_map_snd] at h2
      exact h2
    have htc := tryCollect_interceptedOf icpt path reqs.enum herr2
    have hsb := send_batch_pointwise upstreamB f (forwardedOf icpt path reqs.enum) hf
    have hout := sendBatch_ok upstreamB path icpt reqs.enum _ _ hsb htc
    have hmerge := mergeBy_channels icpt path f reqs.enum
      (pairwise_fst_lt_enumFrom reqs 0) herr2
    rw [hmerge] at hout
    have hbody : ((reqs.enum.map
        (fun p : Nat × RpcRequest => (p.1, expectedResp icpt path f p.2))).map Prod.snd) =
        reqs.map (expectedResp icpt path f) := by
      rw [List.map_map]
      exact enum_map_expected (expectedResp icpt path f) reqs
    rw [hbody] at hout
    simp only [RpcClient.send]
    rw [hout]
  · exact List.length_map reqs (expectedResp icpt path f)

/-- Witness for `batch_order_preserved_in_submission_order` at a concrete
two-element batch whose second element is intercepted. -/
theorem batch_order_preserved_witness :
    RpcClient.send (fun _ _ => .error "unused")
      (fun j => match j with
        | Json.arr xs => .ok (xs.map (fun _ =>
            ({ id := none, error := none, result := some (Json.str "up") } : RpcResponse)))
        | _ => .ok [])
      "/"
      (fun _ r => if r.method = "b"
        then .ok (some { id := some (Json.num 2), error := none, result := some (Json.num 42) })
        else .ok none)
      (([{ id := some (Json.num 1), method := "a", params := [] },
          { id := some (Json.num 2), method := "b", params := [] }] : List RpcRequest).enum)
      (.Batch [{ id := some (Json.num 1), method := "a", params := [] },
        { id := some (Json.num 2), method := "b", params := [] }]) =
      .ok { status := 200,
            body := Json.arr
              (([{ id := some (Json.num 1), method := "a", params := [] },
                  { id := some (Json.num 2), method := "b", params := [] }] : List RpcRequest).map
                (expectedResp
                  (fun _ r => if r.method = "b"
                    then .ok (some { id := some (Json.num 2), error := none,
                                     result := some (Json.num 42) })
                    else .ok none)
                  "/"
                  (fun _ => { id := none, error := none, result := some (Json.str "up") })) |>.map
                RpcResponse.toJson) } :=
  (batch_order_preserved_in_submission_order _ _ "/" _
    (fun _ => { id := none, error := none, result := some (Json.str "up") })
    [{ id := some (Json.num 1), method := "a", params := [] },
      { id := some (Json.num 2), method := "b", params := [] }]
    (by
      intro qs
      induction qs with
      | nil => rfl
      | cons q t ih =>
        simp only [List.map_cons, List.map_map]
        rfl)
    (by
      intro r hr e
      by_cases hm : r.method = "b" <;> simp [hm])).1

/-- Claim C3 counterexample: a single request carrying an explicit
`"id": null` decodes to a request with no `id` (serde deserializes
`Option<Value>` from `null` as `None`), and re-encoding therefore omits
the `id` key entirely instead of preserving `"id": null`; the re-encoded
object differs from the original. -/
theorem null_id_roundtrip_cex :
    decodeSingleOrBatch
        (Json.obj [("id", Json.null), ("method", Json.str "m"), ("params", Json.arr [])]) =
      .ok (.Single { id := none, method := "m", params := [] }) ∧
    (RpcRequest.toJson { id := none, method := "m", params := [] }).lookup "id" = none ∧
    RpcRequest.toJson { id := none, method := "m", params := [] } ≠
      Json.obj [("id", Json.null), ("method", Json.str "m"), ("params", Json.arr [])] :=
  ⟨by decide, by decide, by decide⟩

/-- Claim C3 (amended): decoding a valid single request object and
re-encoding it round-trips the `id` as follows: the decoded `id` is the
last-wins fold of the object's `id` keys with `null` collapsing to
absent; the re-encoded object carries an `id` key exactly when the
decoded `id` is present, with its verbatim value; and the decoded `id`
is never an explicit JSON `null` — so an absent `id` stays absent, a
non-null `id` round-trips verbatim, and an explicit `"id": null`
re-encodes with the `id` key omitted. -/
theorem id_roundtrip_amended (fields : List (String × Json)) (r : RpcRequest)
    (h : decodeSingleOrBatch (Json.obj fields) = .ok (.Single r)) :
    r.id = fields.foldl (fun acc kv => if kv.1 = "id" then decodeOptValue kv.2 else acc) none ∧
    (r.toJson).lookup "id" = r.id ∧
    r.id ≠ some Json.null := by
  have hv : visitMapGo fields none none none = .ok r := by
    have h2 : (match visitMapGo fields none none none with
        | Except.error e => Except.error e
        | Except.ok r2 => Except.ok (SingleOrBatchRpcRequest.Single r2)) =
        Except.ok (SingleOrBatchRpcRequest.Single r) := h
    cases hm : visitMapGo fields none none none with
    | error e => rw [hm] at h2; cases h2
    | ok r2 =>
      rw [hm] at h2
      injection h2 with h2
      injection h2 with h2
      rw [h2]
  refine ⟨visitMapGo_id fields none none none r hv, toJson_lookup_id r, ?_⟩
  rw [visitMapGo_id fields none none none r hv]
  exact foldl_id_ne_null fields none (by simp)

/-- Witness for `id_roundtrip_amended` at a concrete request with a
numeric `id`. -/
theorem id_roundtrip_amended_witness :
    ({ id := some (Json.num 7), method := "m", params := [] } : RpcRequest).id =
      [("id", Json.num 7), ("method", Json.str "m"), ("params", Json.arr [])].foldl
        (fun acc kv => if kv.1 = "id" then decodeOptValue kv.2 else acc) none ∧
    (({ id := some (Json.num 7), method := "m", params := [] } : RpcRequest).toJson).lookup "id" =
      some (Json.num 7) ∧
    ({ id := some (Json.num 7), method := "m", params := [] } : RpcRequest).id ≠
      some Json.null :=
  have h := id_roundtrip_amended
    [("id", Json.num 7), ("method", Json.str "m"), ("params", Json.arr [])]
    { id := some (Json.num 7), method := "m", params := [] } (by decide)
  ⟨h.1, h.2.1, h.2.2⟩

/-- Claim C5 counterexample: when the interception function answers a
single request with a success response whose `id` differs from the
request's, `send` emits that response verbatim — the emitted document's
`id` is the interceptor's (2), not the original request's (1) — so the
response is not built with the original request's `id`. -/
theorem single_opinion_id_cex :
    sendSingle (fun _ _ => .error "unused") "/"
      (fun _ _ => .ok (some { id := some (Json.num 2), error := none,
                              result := some (Json.num 42) }))
      { id := some (Json.num 1), method := "m", params := [] } =
      .ok (({ id := some (Json.num 2), error := none,
              result := some (Json.num 42) } : RpcResponse).intoResponse) ∧
    sendSingle (fun _ _ => .error "unused") "/"
      (fun _ _ => .ok (some { id := some (Json.num 2), error := none,
                              result := some (Json.num 42) }))
      { id := some (Json.num 1), method := "m", params := [] } ≠
      .ok (({ id := some (Json.num 1), error := none,
              result := some (Json.num 42) } : RpcResponse).intoResponse) :=
  ⟨by decide, by decide⟩

/-- Claim C5 (amended): in the single-request case, whenever interception
returns an opinion the upstream is never consulted (the result does not
depend on the upstream oracle), and the HTTP response is built from: the
interceptor's response used verbatim (with whatever `id` it carries) for
a success opinion, or a response carrying the original request's `id` and
the returned error for an error opinion. -/
theorem single_opinion_no_upstream (upstream : String → RpcRequest → Except String HttpOut)
    (path : String) (icpt : Intercept) (req : RpcRequest)
    (res : Except RpcError RpcResponse)
    (h : transposeOut (icpt path req) = some res) :
    sendSingle upstream path icpt req = .ok ((unwrapOrErrResponse req res).intoResponse) ∧
    (∀ e : RpcError, res = .error e →
      unwrapOrErrResponse req res = { id := req.id, error := some e, result := none }) ∧
    (∀ upstream2 : String → RpcRequest → Except String HttpOut,
      sendSingle upstream2 path icpt req = sendSingle upstream path icpt req) := by
  refine ⟨?_, ?_, ?_⟩
  · unfold sendSingle
    rw [h]
  · intro e he
    rw [he]
    rfl
  · intro upstream2
    unfold sendSingle
    rw [h]

/-- Witness for `single_opinion_no_upstream` at a concrete request whose
interception declares an error: the emitted document carries the
request's `id` and the error. -/
theorem single_opinion_no_upstream_witness :
    sendSingle (fun _ _ => .error "unused") "/"
      (fun _ _ => .error { code := -1, message := "nope", status := none })
      { id := some (Json.num 1), method := "a", params := [] } =
      .ok (({ id := some (Json.num 1),
              error := some { code := -1, message := "nope", status := none },
              result := none } : RpcResponse).intoResponse) := by
  have h := single_opinion_no_upstream (fun _ _ => .error "unused") "/"
    (fun _ _ => .error { code := -1, message := "nope", status := none })
    { id := some (Json.num 1), method := "a", params := [] }
    (.error { code := -1, message := "nope", status := none }) (by decide)
  rw [h.1, h.2.1 _ rfl]

/-- A `try_load` call on a cookie file always leaves a snapshot whose
timestamp is the file's current modification time and whose header is the
value just returned. -/
theorem try_load_cookie_snapshot (m : Nat) (c : String) (cache : Option (Nat × String)) :
    (try_load_cookie m c cache).2.1 = some (m, (try_load_cookie m c cache).1) := by
  unfold try_load_cookie
  cases cache with
  | none => rfl
  | some p =>
    obtain ⟨t, hs⟩ := p
    dsimp only
    by_cases hm : m = t
    · subst hm
      rw [if_pos rfl]
    · rw [if_neg hm]

/-- Cache hit: matching timestamps return the cached header, leave the
snapshot unchanged, and read no file contents. -/
theorem try_load_cookie_hit (m : Nat) (c : String) (h : String) :
    try_load_cookie m c (some (m, h)) = (h, some (m, h), false) := by
  unfold try_load_cookie
  dsimp only
  rw [if_pos rfl]

/-- Cache miss against a stale snapshot: the header is recomputed from
the current contents, the snapshot is replaced, and the contents were
read. -/
theorem try_load_cookie_miss (m m2 : Nat) (c : String) (h : String) (hne : m2 ≠ m) :
    try_load_cookie m2 c (some (m, h)) =
      ("Basic " ++ load_from_file c, some (m2, "Basic " ++ load_from_file c), true) := by
  unfold try_load_cookie
  dsimp only
  rw [if_neg hne]

/-- Claim C7 counterexample: touching the cookie file (timestamp 0 to 1)
without changing its contents makes the second `try_load` re-read and
re-encode the contents — yet return the same header value, refuting "the
returned value changes if and only if the modification timestamp
changed". -/
theorem cookie_change_iff_cex :
    (try_load_cookie 1 "c" (try_load_cookie 0 "c" none).2.1).1 =
      (try_load_cookie 0 "c" none).1 ∧
    (try_load_cookie 1 "c" (try_load_cookie 0 "c" none).2.1).2.2 = true ∧
    (1 : Nat) ≠ 0 :=
  ⟨by decide, by decide, by decide⟩

/-- Claim C7 (amended): a `try_load` on a `CookieFile` source returns the
cached header without reading file contents when the cached timestamp
matches the file's current one, and otherwise reads the contents (one
trailing newline stripped, base64-encoded, wrapped as a `Basic` header),
installs the new `(timestamp, header)` snapshot and returns the header;
consequently, across two consecutive calls the returned value is
unchanged (with no content read) whenever the timestamp is unchanged —
so the value changes only if the timestamp changed — while a changed
timestamp re-derives the header from the current contents, which may or
may not equal the previous value. -/
theorem cookie_try_load_spec (m m2 : Nat) (c c2 : String) (cache : Option (Nat × String)) :
    (cacheHit m cache = true →
      try_load_cookie m c cache = ((cache.getD (0, "")).2, cache, false)) ∧
    (cacheHit m cache = false →
      try_load_cookie m c cache =
        ("Basic " ++ load_from_file c, some (m, "Basic " ++ load_from_file c), true)) ∧
    (m2 = m →
      try_load_cookie m2 c2 (try_load_cookie m c cache).2.1 =
        ((try_load_cookie m c cache).1, (try_load_cookie m c cache).2.1, false)) ∧
    ((try_load_cookie m2 c2 (try_load_cookie m c cache).2.1).1 ≠
        (try_load_cookie m c cache).1 → m2 ≠ m) ∧
    (m2 ≠ m →
      (try_load_cookie m2 c2 (try_load_cookie m c cache).2.1).1 =
        "Basic " ++ load_from_file c2 ∧
      (try_load_cookie m2 c2 (try_load_cookie m c cache).2.1).2.2 = true) := by
  have hsnap := try_load_cookie_snapshot m c cache
  refine ⟨?_, ?_, ?_, ?_, ?_⟩
  · intro hh
    cases cache with
    | none => cases hh
    | some p =>
      obtain ⟨t, hs⟩ := p
      have hmt : m = t := of_decide_eq_true hh
      subst hmt
      exact try_load_cookie_hit m c hs
  · intro hh
    cases cache with
    | none => rfl
    | some p =>
      obtain ⟨t, hs⟩ := p
      have hmt : ¬ m = t := of_decide_eq_false hh
      exact try_load_cookie_miss t m c hs hmt
  · intro he
    subst he
    rw [hsnap]
    exact try_load_cookie_hit m2 c2 (try_load_cookie m2 c cache).1
  · intro hval he
    apply hval
    subst he
    rw [hsnap, try_load_cookie_hit]
  · intro hne
    rw [hsnap]
    constructor
    · rw [try_load_cookie_miss m m2 c2 ((try_load_cookie m c cache).1) hne]
    · rw [try_load_cookie_miss m m2 c2 ((try_load_cookie m c cache).1) hne]

/-- Witness for `cookie_try_load_spec`: a concrete cache hit and a
concrete first load. -/
theorem cookie_try_load_spec_witness :
    try_load_cookie 5 "x" (some (5, "Basic dA==")) =
      ("Basic dA==", some (5, "Basic dA=="), false) ∧
    try_load_cookie 6 "x" none =
      ("Basic " ++ load_from_file "x", some (6, "Basic " ++ load_from_file "x"), true) :=
  ⟨(cookie_try_load_spec 5 6 "x" "y" (some (5, "Basic dA=="))).1 (by decide),
    (cookie_try_load_spec 6 0 "x" "y" none).2.1 (by decide)⟩
